import Mathlib

/-!
Verification of the MealPlan backend (`meal_plan.py`) against its
natural-language specification.

The development shallowly embeds the request-scoped logic of the single
source file:

* `calculate_days_to_expiry` — `datetime.strptime(date, "%Y-%m-%d")`
  followed by date subtraction.  The `strptime` directive semantics are
  modelled from CPython's `_strptime` regexes (`%Y` = exactly four digits,
  `%m` = `1[0-2]|0[1-9]|[1-9]`, `%d` = `3[01]|[12]\d|0[1-9]|[1-9]`), the
  full-match/leftover check, and the calendar validation performed by the
  `datetime` constructor.  Date ordinals follow CPython's `toordinal`.
* the markdown cleanup `re.sub(r"^```json|```$", "", result.strip(),
  flags=re.IGNORECASE).strip("`\n ")` — since the regex has no MULTILINE
  flag, the first alternative can only fire at position 0 and the second
  only at the end of the (already stripped, hence newline-free) string,
  and the apparent backtracking of the `%m`-style alternations is vacuous,
  so the substitution is exactly "drop a leading ```json, then drop a
  trailing ```".
* `json.loads` — a fuel-indexed recursive-descent JSON parser over
  `List Char`.  Numbers are kept as their source lexeme (float semantics
  are out of scope), and `\u` escapes in the UTF-16 surrogate range are
  not representable in Lean strings and are outside the model.
* `ast.literal_eval` — a parser for the Python literal subset the handler
  relies on: single/double quoted strings (common escapes; unknown escapes
  keep the backslash verbatim), signed int/float lexemes, `True`/`False`/
  `None`, lists, tuples (including the parenthesised-expression and
  trailing-comma rules) and dicts with scalar keys.  Sets, bytes/raw
  strings, implicit string concatenation, underscores/hex in numbers and
  container dict keys are outside the modelled subset.
* the three Flask handlers.  A handler's outcome is
  `Except String (Nat × Body)`: `.ok (status, body)` is a returned
  response, `.error e` is an exception escaping the handler uncaught.
  The OCR and LLM adapters are parameters (`Except String String` and
  `String → Except String String`), and "today" is a parameter standing
  for the wall-clock date at invocation time.
-/

/-- The backtick character, used by the markdown-fence stripping. -/
def btChar : Char := Char.ofNat 96

/-- JSON whitespace as accepted by `json.loads` between tokens. -/
def isJWs (c : Char) : Bool :=
  c == ' ' || c == '\t' || c == '\n' || c == '\r'

/-- ASCII whitespace stripped by Python's `str.strip()` (the unicode
whitespace beyond ASCII is not modelled). -/
def isPyWs (c : Char) : Bool :=
  c == ' ' || c == '\t' || c == '\n' || c == '\r' ||
  c == '\x0b' || c == '\x0c'

/-- The character set of the final `.strip("`\n ")` cleanup. -/
def isBT (c : Char) : Bool :=
  c == btChar || c == '\n' || c == ' '

/-- Drop matching characters from the right end of a list. -/
def dropEndWhile (p : Char → Bool) (l : List Char) : List Char :=
  (l.reverse.dropWhile p).reverse

/-- Strip matching characters from both ends (Python's `str.strip`). -/
def trimBy (p : Char → Bool) (l : List Char) : List Char :=
  dropEndWhile p (l.dropWhile p)

/- ----------------------------------------------------------------- -/
/- Dates: CPython `datetime.date` ordinals and `strptime("%Y-%m-%d")` -/
/- ----------------------------------------------------------------- -/

/-- Gregorian leap-year test, as in CPython `datetime._is_leap`. -/
def isLeap (y : Nat) : Bool :=
  y % 4 == 0 && (y % 100 != 0 || y % 400 == 0)

/-- Days in a month, as in CPython `datetime._days_in_month`. -/
def monthDays (y m : Nat) : Nat :=
  if m == 2 then (if isLeap y then 29 else 28)
  else if m == 4 || m == 6 || m == 9 || m == 11 then 30
  else 31

/-- Days in the months strictly before month `m` of year `y`
(CPython `datetime._days_before_month`). -/
def daysBeforeMonth (y : Nat) : Nat → Nat
  | 0 => 0
  | 1 => 0
  | m + 2 => daysBeforeMonth y (m + 1) + monthDays y (m + 1)

/-- A proleptic Gregorian calendar date, the payload of a parsed
`datetime.date`. -/
structure Date where
  year : Nat
  month : Nat
  day : Nat
deriving DecidableEq, Repr

/-- CPython `date.toordinal`: day 1 is January 1 of year 1;
`(a - b).days = a.toordinal() - b.toordinal()`. -/
def dateOrd (d : Date) : Nat :=
  let p := d.year - 1
  p * 365 + p / 4 - p / 100 + p / 400 + daysBeforeMonth d.year d.month + d.day

/-- Numeric value of a decimal digit character. -/
def dval (c : Char) : Nat := c.toNat - 48

/-- The `%m` directive of `_strptime`: regex `1[0-2]|0[1-9]|[1-9]`.
When the two-digit branch `1[0-2]` fires, backtracking to the one-digit
branch is vacuous (the following literal `-` can never match a digit),
so the ordered alternation is deterministic. -/
def parseMonth : List Char → Option (Nat × List Char)
  | '1' :: c :: t =>
    if '0' ≤ c && c ≤ '2' then some (10 + dval c, t) else some (1, c :: t)
  | '0' :: c :: t =>
    if '1' ≤ c && c ≤ '9' then some (dval c, t) else none
  | c :: t =>
    if '1' ≤ c && c ≤ '9' then some (dval c, t) else none
  | [] => none

/-- The `%d` directive of `_strptime`: regex `3[01]|[12]\d|0[1-9]|[1-9]`. -/
def parseDay : List Char → Option (Nat × List Char)
  | '3' :: c :: t =>
    if c == '0' || c == '1' then some (30 + dval c, t) else some (3, c :: t)
  | '0' :: c :: t =>
    if '1' ≤ c && c ≤ '9' then some (dval c, t) else none
  | c :: d :: t =>
    if ('1' ≤ c && c ≤ '2') && d.isDigit then some (10 * dval c + dval d, t)
    else if '1' ≤ c && c ≤ '9' then some (dval c, d :: t)
    else none
  | [c] => if '1' ≤ c && c ≤ '9' then some (dval c, []) else none
  | [] => none

/-- The regex phase of `strptime(s, "%Y-%m-%d")`: four year digits, a
literal dash, `%m`, a literal dash, `%d`; returns the fields and the
unconsumed tail. -/
def parseYMD : List Char → Option (Nat × Nat × Nat × List Char)
  | a :: b :: c :: d :: '-' :: r =>
    if a.isDigit && b.isDigit && c.isDigit && d.isDigit then
      match parseMonth r with
      | some (m, r2) =>
        match r2 with
        | '-' :: r3 =>
          match parseDay r3 with
          | some (dy, r4) =>
            some (dval a * 1000 + dval b * 100 + dval c * 10 + dval d, m, dy, r4)
          | none => none
        | _ => none
      | none => none
    else none
  | _ => none

/-- Message of the `ValueError` raised when the regex does not match. -/
def fmtErrMsg (s : String) : String :=
  "time data \x27" ++ s ++ "\x27 does not match format \x27%Y-%m-%d\x27"

/-- `datetime.strptime(s, "%Y-%m-%d").date()`: regex match, full-match
check, then the calendar validation done by the `datetime` constructor. -/
def parseDate (s : String) : Except String Date :=
  match parseYMD s.data with
  | none => .error (fmtErrMsg s)
  | some (y, m, d, leftover) =>
    if leftover ≠ [] then
      .error ("unconverted data remains: " ++ String.mk leftover)
    else if y = 0 then
      .error "year 0 is out of range"
    else if d > monthDays y m then
      .error "day is out of range for month"
    else
      .ok ⟨y, m, d⟩

/-- Whether an `Except` computation succeeded. -/
def isOkB {ε α : Type} : Except ε α → Bool
  | .ok _ => true
  | .error _ => false

/-- `calculate_days_to_expiry` (meal_plan.py:30-33): for each item, parse
its date with `strptime("%Y-%m-%d")` and subtract today's date; a dict is
modelled as an association list in insertion order, and the first parse
failure raises. -/
def calculate_days_to_expiry (expiry_dates : List (String × String))
    (today : Date) : Except String (List (String × Int)) :=
  match expiry_dates with
  | [] => .ok []
  | p :: rest => do
    let d ← parseDate p.2
    let tail ← calculate_days_to_expiry rest today
    .ok ((p.1, (dateOrd d : Int) - (dateOrd today : Int)) :: tail)

example : parseDate "2024-01-04" = .ok ⟨2024, 1, 4⟩ := rfl
example : parseDate "2024-1-1" = .ok ⟨2024, 1, 1⟩ := rfl
example : isOkB (parseDate "2024/01/01") = false := rfl
example : isOkB (parseDate "not-a-date") = false := rfl
example : isOkB (parseDate "2023-02-29") = false := rfl
example : parseDate "2024-02-29" = .ok ⟨2024, 2, 29⟩ := rfl
example : isOkB (parseDate "2024-01-04x") = false := rfl
example : calculate_days_to_expiry [("Milk", "2024-01-04")] ⟨2024, 1, 1⟩ =
    .ok [("Milk", 3)] := rfl
example : calculate_days_to_expiry [("Milk", "2023-12-30")] ⟨2024, 1, 1⟩ =
    .ok [("Milk", -2)] := rfl

/- ----------------------------------------------------------------- -/
/- Markdown cleanup (meal_plan.py:145 and 175)                        -/
/- ----------------------------------------------------------------- -/

/-- Whether the first regex alternative `^```json` (IGNORECASE) matches:
three backticks followed by "json" in any case. -/
def hasFenceHead (t : List Char) : Bool :=
  match t with
  | a :: b :: c :: j :: s :: o :: n :: _ =>
    a == btChar && b == btChar && c == btChar &&
    j.toLower == 'j' && s.toLower == 's' && o.toLower == 'o' && n.toLower == 'n'
  | _ => false

/-- Whether the second regex alternative ` ```$ ` matches: the string ends
in three backticks (the input is pre-stripped, so `$` cannot fire before a
trailing newline). -/
def hasFenceEnd (t : List Char) : Bool :=
  match t.reverse with
  | x :: y :: z :: _ => x == btChar && y == btChar && z == btChar
  | _ => false

/-- `re.sub(r"^```json|```$", "", result.strip(), flags=re.IGNORECASE)
.strip("`\n ")`.  Without MULTILINE the first alternative can only match
at position 0 and the second only at the very end, so the substitution is
exactly: drop a leading ```` ```json ````, then drop a trailing
```` ``` ````. -/
def cmList (l : List Char) : List Char :=
  let t := trimBy isPyWs l
  let t1 := if hasFenceHead t then t.drop 7 else t
  let t2 := if hasFenceEnd t1 then t1.take (t1.length - 3) else t1
  trimBy isBT t2

/-- The handlers' response cleanup, as a `String` function. -/
def cleanMarkdown (s : String) : String := String.mk (cmList s.data)

/-- The fence predicates both false: the cleaned-up text carries no
markdown fences (the only configurations the regex can remove). -/
def noFences (s : String) : Bool :=
  !hasFenceHead (trimBy isPyWs s.data) && !hasFenceEnd (trimBy isPyWs s.data)

/- ----------------------------------------------------------------- -/
/- JSON values and `json.loads`                                       -/
/- ----------------------------------------------------------------- -/

/-- Parsed JSON values.  Numbers keep their source lexeme: the claims
under verification never depend on float semantics, only on which texts
parse and on the parse of small integer literals. -/
inductive J where
  | null : J
  | bool (b : Bool) : J
  | num (lex : String) : J
  | str (s : String) : J
  | arr (elems : List J) : J
  | obj (members : List (String × J)) : J

/-- Skip JSON inter-token whitespace. -/
def skipWs (l : List Char) : List Char := l.dropWhile isJWs

/-- Hexadecimal digit value. -/
def hexVal (c : Char) : Option Nat :=
  if c.isDigit then some (c.toNat - 48)
  else if 'a' ≤ c && c ≤ 'f' then some (c.toNat - 87)
  else if 'A' ≤ c && c ≤ 'F' then some (c.toNat - 55)
  else none

/-- The single-character JSON string escapes. -/
def escChar (e : Char) : Option Char :=
  if e == '"' then some '"'
  else if e == '\\' then some '\\'
  else if e == '/' then some '/'
  else if e == 'b' then some '\x08'
  else if e == 'f' then some '\x0c'
  else if e == 'n' then some '\n'
  else if e == 'r' then some '\r'
  else if e == 't' then some '\t'
  else none

/-- The value of four hex digits, when all are valid. -/
def hexVal4 (h1 h2 h3 h4 : Char) : Option Nat :=
  match hexVal h1, hexVal h2, hexVal h3, hexVal h4 with
  | some a, some b, some c, some d => some (a * 4096 + b * 256 + c * 16 + d)
  | _, _, _, _ => none

mutual

/-- JSON string body after the opening quote: content chars and the rest
after the closing quote.  Control characters are rejected (strict mode);
`\uXXXX` escapes are decoded to the corresponding scalar — escapes in the
surrogate range (which Python accepts, pairing or keeping them as lone
surrogates) have no Lean `Char` and are outside the model. -/
def pStrTok : Nat → List Char → Option (List Char × List Char)
  | 0, _ => none
  | _ + 1, [] => none
  | f + 1, c :: r =>
    if c == '"' then some ([], r)
    else if c == '\\' then pEsc f r
    else if c.toNat < 32 then none
    else (pStrTok f r).map (fun p => (c :: p.1, p.2))

/-- The escape following a backslash, then the remainder of the string
body. -/
def pEsc : Nat → List Char → Option (List Char × List Char)
  | 0, _ => none
  | _ + 1, [] => none
  | f + 1, e :: t =>
    if e == 'u' then pEscU f t
    else
      match escChar e with
      | some ch => (pStrTok f t).map (fun p => (ch :: p.1, p.2))
      | none => none

/-- A `\uXXXX` escape body (after the `u`), then the remainder of the
string body. -/
def pEscU : Nat → List Char → Option (List Char × List Char)
  | 0, _ => none
  | f + 1, h1 :: h2 :: h3 :: h4 :: t2 =>
    (match hexVal4 h1 h2 h3 h4 with
     | some n =>
       if 0xd800 ≤ n && n ≤ 0xdfff then none
       else (pStrTok f t2).map (fun p => (Char.ofNat n :: p.1, p.2))
     | none => none)
  | _ + 1, _ => none

end

/-- JSON number: integer part (`0` or nonzero-led digits). -/
def pNumInt : List Char → Option (List Char × List Char)
  | [] => none
  | c :: t =>
    if c == '0' then some ([c], t)
    else if c.isDigit then some (c :: t.takeWhile Char.isDigit, t.dropWhile Char.isDigit)
    else none

/-- JSON number: optional fraction `(\.\d+)?`; like the stdlib regex, a
dot not followed by a digit is left unconsumed. -/
def pNumFrac (l : List Char) : List Char × List Char :=
  match l with
  | a :: c :: t =>
    if a == '.' && c.isDigit then (a :: c :: t.takeWhile Char.isDigit, t.dropWhile Char.isDigit)
    else ([], l)
  | _ => ([], l)

/-- JSON number: optional exponent `([eE][-+]?\d+)?`, unconsumed when the
digits are missing. -/
def pNumExp (l : List Char) : List Char × List Char :=
  match l with
  | e :: s :: c :: t =>
    if (e == 'e' || e == 'E') && (s == '+' || s == '-') && c.isDigit then
      (e :: s :: c :: t.takeWhile Char.isDigit, t.dropWhile Char.isDigit)
    else if (e == 'e' || e == 'E') && s.isDigit then
      (e :: s :: (c :: t).takeWhile Char.isDigit, (c :: t).dropWhile Char.isDigit)
    else ([], l)
  | e :: s :: t =>
    if (e == 'e' || e == 'E') && s.isDigit then
      (e :: s :: t.takeWhile Char.isDigit, t.dropWhile Char.isDigit)
    else ([], l)
  | _ => ([], l)

/-- Fraction and exponent continuation of a number after its integer
part. -/
def pNumAfterInt (i r1 : List Char) : List Char × List Char :=
  let fr := pNumFrac r1
  let ex := pNumExp fr.2
  (i ++ fr.1 ++ ex.1, ex.2)

/-- JSON number token (the stdlib `NUMBER_RE`), returning the lexeme. -/
def pNum (l : List Char) : Option (List Char × List Char) :=
  match l with
  | c :: t =>
    if c == '-' then
      (match pNumInt t with
       | some (i, r1) =>
         let p := pNumAfterInt i r1
         some (c :: p.1, p.2)
       | none => none)
    else
      (match pNumInt (c :: t) with
       | some (i, r1) => some (pNumAfterInt i r1)
       | none => none)
  | [] => none

mutual

/-- One JSON value at the head of the input (leading whitespace already
skipped by the caller), fuel-indexed; two fuel units per input character
suffice. -/
def pVal : Nat → List Char → Option (J × List Char)
  | 0, _ => none
  | _ + 1, [] => none
  | f + 1, c :: t =>
    if c == '{' then
      match skipWs t with
      | d :: r2 =>
        if d == '}' then some (J.obj [], r2)
        else (pMembers f (d :: r2)).map (fun p => (J.obj p.1, p.2))
      | [] => none
    else if c == '[' then
      match skipWs t with
      | d :: r2 =>
        if d == ']' then some (J.arr [], r2)
        else (pElems f (d :: r2)).map (fun p => (J.arr p.1, p.2))
      | [] => none
    else if c == '"' then
      (pStrTok (f + 1) t).map (fun p => (J.str (String.mk p.1), p.2))
    else if c == 't' then
      match t with
      | x :: y :: z :: t2 =>
        if x == 'r' && y == 'u' && z == 'e' then some (J.bool true, t2) else none
      | _ => none
    else if c == 'f' then
      match t with
      | x :: y :: z :: w :: t2 =>
        if x == 'a' && y == 'l' && z == 's' && w == 'e' then some (J.bool false, t2)
        else none
      | _ => none
    else if c == 'n' then
      match t with
      | x :: y :: z :: t2 =>
        if x == 'u' && y == 'l' && z == 'l' then some (J.null, t2) else none
      | _ => none
    else if c == '-' || c.isDigit then
      (pNum (c :: t)).map (fun p => (J.num (String.mk p.1), p.2))
    else none

/-- Array elements `v (, v)* ]` with the closing bracket, starting at a
value position. -/
def pElems : Nat → List Char → Option (List J × List Char)
  | 0, _ => none
  | f + 1, l =>
    match pVal f l with
    | some (v, r) =>
      (match skipWs r with
       | d :: r2 =>
         if d == ',' then (pElems f (skipWs r2)).map (fun p => (v :: p.1, p.2))
         else if d == ']' then some ([v], r2)
         else none
       | [] => none)
    | none => none

/-- Object members `"k" : v (, "k" : v)* }` with the closing brace. -/
def pMembers : Nat → List Char → Option (List (String × J) × List Char)
  | 0, _ => none
  | _ + 1, [] => none
  | f + 1, c :: t =>
    if c == '"' then
      match pStrTok (f + 1) t with
      | some (k, r1) =>
        (match skipWs r1 with
         | d :: r2 =>
           if d == ':' then
             match pVal f (skipWs r2) with
             | some (v, r3) =>
               (match skipWs r3 with
                | d2 :: r4 =>
                  if d2 == ',' then
                    (pMembers f (skipWs r4)).map (fun p => ((String.mk k, v) :: p.1, p.2))
                  else if d2 == '}' then some ([(String.mk k, v)], r4)
                  else none
                | [] => none)
             | none => none
           else none
         | [] => none)
      | none => none
    else none

end

/-- `json.loads` as a total function: trim surrounding JSON whitespace,
parse exactly one value, require that nothing remains.  (The stdlib skips
leading whitespace, decodes one value, skips trailing whitespace and
raises "Extra data" otherwise — extensionally the same.) -/
def parseJson (s : String) : Option J :=
  match pVal (2 * (trimBy isJWs s.data).length + 2) (trimBy isJWs s.data) with
  | some (v, r) => if r = [] then some v else none
  | none => none

/-- `json.loads` with the raised `JSONDecodeError` as an `Except` error
(the exact position-dependent message text is not modelled). -/
def jsonLoads (s : String) : Except String J :=
  match parseJson s with
  | some j => .ok j
  | none => .error "Expecting value: invalid JSON"

example : parseJson "\x7b\"a\":1\x7d" = some (J.obj [("a", J.num "1")]) := rfl
example : parseJson " [1, 2.5e3, true, null, \"x\"] " =
    some (J.arr [J.num "1", J.num "2.5e3", J.bool true, J.null, J.str "x"]) := rfl
example : parseJson "not json at all" = none := rfl
example : parseJson "" = none := rfl
example : parseJson "\x7b\"a\": [1, \x7b\"b\": false\x7d]\x7d" =
    some (J.obj [("a", J.arr [J.num "1", J.obj [("b", J.bool false)]])]) := rfl
example : parseJson "[1,]" = none := rfl
example : parseJson "01" = none := rfl
example : cleanMarkdown "```json\n\x7b\"a\":1\x7d\n```" = "\x7b\"a\":1\x7d" := rfl
example : cleanMarkdown "```JSON\n[1]\n```" = "[1]" := rfl
example : cleanMarkdown "  \x7b\"a\":1\x7d\n```" = "\x7b\"a\":1\x7d" := rfl
example : cleanMarkdown "```json\n\x7b\"a\":1\x7d" = "\x7b\"a\":1\x7d" := rfl
example : cleanMarkdown "plain" = "plain" := rfl
example : cleanMarkdown "```" = "" := rfl
example : cleanMarkdown "``````" = "" := rfl

/- ----------------------------------------------------------------- -/
/- Python literals and `ast.literal_eval`                             -/
/- ----------------------------------------------------------------- -/

/-- Values of the modelled `ast.literal_eval` subset.  Numbers keep their
source lexeme (int/float semantics are not needed by any claim). -/
inductive PyLit where
  | str (s : String) : PyLit
  | num (lex : String) : PyLit
  | bool (b : Bool) : PyLit
  | noneV : PyLit
  | list (xs : List PyLit) : PyLit
  | tuple (xs : List PyLit) : PyLit
  | dict (kvs : List (PyLit × PyLit)) : PyLit

/-- Whitespace the Python tokenizer skips between tokens (inside
brackets newlines are also insignificant; the distinction between
bracketed and top-level newlines is not modelled). -/
def isPWs (c : Char) : Bool :=
  c == ' ' || c == '\t' || c == '\n' || c == '\r' || c == '\x0c'

/-- Skip Python inter-token whitespace. -/
def skipPWs (l : List Char) : List Char := l.dropWhile isPWs

/-- Python short string escapes; an unrecognised escape keeps the
backslash verbatim (CPython behaviour for unknown escapes; `\x`, `\u`
and octal escapes are not modelled), and a backslash-newline is a line
continuation producing nothing. -/
def pyEsc (e : Char) : List Char :=
  if e == 'n' then ['\n']
  else if e == 't' then ['\t']
  else if e == 'r' then ['\r']
  else if e == '\\' then ['\\']
  else if e == '\x27' then ['\x27']
  else if e == '"' then ['"']
  else if e == '0' then [Char.ofNat 0]
  else if e == '\n' then []
  else ['\\', e]

/-- Python string body after the opening quote `q`, up to the closing
`q`; a bare newline inside a (single-quoted) string is a syntax error. -/
def pyStrTok (q : Char) : Nat → List Char → Option (List Char × List Char)
  | 0, _ => none
  | _ + 1, [] => none
  | f + 1, c :: r =>
    if c == q then some ([], r)
    else if c == '\n' then none
    else if c == '\\' then
      match r with
      | e :: t => (pyStrTok q f t).map (fun p => (pyEsc e ++ p.1, p.2))
      | [] => none
    else (pyStrTok q f r).map (fun p => (c :: p.1, p.2))

/-- Unsigned Python number lexeme: `digits [. digits?] [exp]` or
`. digits [exp]`; a plain integer must not have leading zeros (unless it
is all zeros).  Hex/binary/octal literals and underscores in numbers are
not modelled. -/
def pyNumBody (l : List Char) : Option (List Char × List Char) :=
  match l with
  | '.' :: c :: t =>
    if c.isDigit then
      let ds := t.takeWhile Char.isDigit
      let r1 := t.dropWhile Char.isDigit
      let ex := pNumExp r1
      some ('.' :: c :: (ds ++ ex.1), ex.2)
    else none
  | c :: t =>
    if c.isDigit then
      let ds := c :: t.takeWhile Char.isDigit
      let r1 := t.dropWhile Char.isDigit
      match r1 with
      | '.' :: t2 =>
        let ds2 := t2.takeWhile Char.isDigit
        let r2 := t2.dropWhile Char.isDigit
        let ex := pNumExp r2
        some (ds ++ '.' :: (ds2 ++ ex.1), ex.2)
      | _ =>
        let ex := pNumExp r1
        if ex.1 = [] then
          if c == '0' && ds.any (fun d => d != '0') then none
          else some (ds, r1)
        else some (ds ++ ex.1, ex.2)
    else none
  | [] => none

/-- Python number with an optional immediate sign (`ast.literal_eval`
accepts a unary `+`/`-` on numeric literals). -/
def pyNum (l : List Char) : Option (List Char × List Char) :=
  match l with
  | '+' :: t => (pyNumBody t).map (fun p => ('+' :: p.1, p.2))
  | '-' :: t => (pyNumBody t).map (fun p => ('-' :: p.1, p.2))
  | _ => pyNumBody l

/-- Dict keys must be hashable: scalar literals qualify, containers make
`literal_eval` raise (modelled as a parse failure; hashable tuple keys
are outside the modelled subset). -/
def isScalarKey : PyLit → Bool
  | .str _ => true
  | .num _ => true
  | .bool _ => true
  | .noneV => true
  | _ => false

mutual

/-- One Python literal at the head of the input (whitespace already
skipped by the caller), fuel-indexed. -/
def pyVal : Nat → List Char → Option (PyLit × List Char)
  | 0, _ => none
  | f + 1, '"' :: r =>
    (pyStrTok '"' (f + 1) r).map (fun p => (PyLit.str (String.mk p.1), p.2))
  | f + 1, '\x27' :: r =>
    (pyStrTok '\x27' (f + 1) r).map (fun p => (PyLit.str (String.mk p.1), p.2))
  | f + 1, '[' :: r =>
    (match skipPWs r with
     | ']' :: r2 => some (PyLit.list [], r2)
     | r1 => (pySeq f ']' r1).map (fun p => (PyLit.list p.1, p.2.2)))
  | f + 1, '(' :: r =>
    (match skipPWs r with
     | ')' :: r2 => some (PyLit.tuple [], r2)
     | r1 => (pySeq f ')' r1).map (fun p =>
         match p.1, p.2.1 with
         | [v], false => (v, p.2.2)
         | vs, _ => (PyLit.tuple vs, p.2.2)))
  | f + 1, '{' :: r =>
    (match skipPWs r with
     | '}' :: r2 => some (PyLit.dict [], r2)
     | r1 => (pyDictMembers f r1).map (fun p => (PyLit.dict p.1, p.2)))
  | _ + 1, 'T' :: 'r' :: 'u' :: 'e' :: t => some (PyLit.bool true, t)
  | _ + 1, 'F' :: 'a' :: 'l' :: 's' :: 'e' :: t => some (PyLit.bool false, t)
  | _ + 1, 'N' :: 'o' :: 'n' :: 'e' :: t => some (PyLit.noneV, t)
  | _ + 1, c :: r =>
    if c == '+' || c == '-' || c == '.' || c.isDigit then
      (pyNum (c :: r)).map (fun p => (PyLit.num (String.mk p.1), p.2))
    else none
  | _ + 1, [] => none

/-- Comma-separated literals up to the closing delimiter (consumed);
reports whether any comma occurred (for the tuple/parenthesised-value
distinction) and allows a trailing comma. -/
def pySeq : Nat → Char → List Char → Option (List PyLit × Bool × List Char)
  | 0, _, _ => none
  | f + 1, close, l => do
    let (v, r) ← pyVal f l
    match skipPWs r with
    | ',' :: r2 =>
      (match skipPWs r2 with
       | c :: r3 =>
         if c == close then some ([v], true, r3)
         else (pySeq f close (c :: r3)).map (fun p => (v :: p.1, true, p.2.2))
       | [] => none)
    | c :: r2 => if c == close then some ([v], false, r2) else none
    | [] => none

/-- Dict members `k : v (, k : v)* }` with the closing brace, allowing a
trailing comma. -/
def pyDictMembers : Nat → List Char → Option (List (PyLit × PyLit) × List Char)
  | 0, _ => none
  | f + 1, l => do
    let (k, r) ← pyVal f l
    if isScalarKey k then
      match skipPWs r with
      | ':' :: r2 => do
        let (v, r3) ← pyVal f (skipPWs r2)
        match skipPWs r3 with
        | ',' :: r4 =>
          (match skipPWs r4 with
           | '}' :: r5 => some ([(k, v)], r5)
           | r4s => (pyDictMembers f r4s).map (fun p => ((k, v) :: p.1, p.2)))
        | '}' :: r4 => some ([(k, v)], r4)
        | _ => none
      | _ => none
    else none

end

/-- `ast.literal_eval` on a string: the source lstrips `" \t"` and
compiles in eval mode (the tokenizer also ignores leading blank lines
and trailing whitespace, both included in the skip here); exactly one
literal expression must remain. -/
def literalEval (s : String) : Option PyLit :=
  let t := skipPWs s.data
  match pyVal (2 * t.length + 2) t with
  | some (v, r) => if skipPWs r = [] then some v else none
  | none => none

/-- Modelled from the spec (§4.3): the Response Normalizer the spec
describes for item-extraction output — fence stripping first, then the
constrained literal parse.  The code under `src/` does not strip fences
on this path; this definition exists only to compare the spec's contract
against the code's behaviour. -/
def specItemNormalize (raw : String) : Option PyLit :=
  literalEval (cleanMarkdown raw)

example : literalEval "[\x27Milk\x27, \x27Eggs\x27]" =
    some (PyLit.list [PyLit.str "Milk", PyLit.str "Eggs"]) := rfl
example : literalEval "```json\n[\x27Milk\x27]\n```" = none := rfl
example : literalEval "42" = some (PyLit.num "42") := rfl
example : literalEval "(1, \x27a\x27)" =
    some (PyLit.tuple [PyLit.num "1", PyLit.str "a"]) := rfl
example : literalEval "(1)" = some (PyLit.num "1") := rfl
example : literalEval "(1,)" = some (PyLit.tuple [PyLit.num "1"]) := rfl
example : literalEval "\x7b\x27a\x27: 1\x7d" =
    some (PyLit.dict [(PyLit.str "a", PyLit.num "1")]) := rfl
example : literalEval "-1.5" = some (PyLit.num "-1.5") := rfl
example : literalEval "012" = none := rfl
example : literalEval "[1, 2,]" = some (PyLit.list [PyLit.num "1", PyLit.num "2"]) := rfl
example : literalEval "None" = some PyLit.noneV := rfl
example : literalEval "foo" = none := rfl
example : specItemNormalize "```json\n[\x27Milk\x27]\n```" =
    some (PyLit.list [PyLit.str "Milk"]) := rfl

/- ----------------------------------------------------------------- -/
/- Prompt templates and request handlers                              -/
/- ----------------------------------------------------------------- -/

/-- `str()` of a value obtained by `data.get(...)`: a missing field is
`None` and renders as "None"; present values are modelled already
stringified (JSON numbers arrive as their decimal text). -/
def pyStrOfOpt (o : Option String) : String := o.getD "None"

/-- `repr` of a Python string as used inside `str(list)`/`str(dict)`
(single quotes; strings containing quotes are outside the model). -/
def pyReprStr (s : String) : String := "\x27" ++ s ++ "\x27"

/-- `str()` of a Python list of strings, e.g. `['Milk', 'Eggs']`. -/
def pyStrOfList (xs : List String) : String :=
  "[" ++ String.intercalate ", " (xs.map pyReprStr) ++ "]"

/-- `str()` of the days-to-expiry dict, e.g. `{'Milk': 3}`. -/
def pyStrOfDict (kvs : List (String × Int)) : String :=
  "\x7b" ++ String.intercalate ", " (kvs.map (fun p => pyReprStr p.1 ++ ": " ++ toString p.2)) ++ "\x7d"

/-- `prompt_template_items` (meal_plan.py:35-43) rendered. -/
def renderItemsPrompt (extracted_text : String) : String :=
  "\n    this is the text extracted from a grocery bill using pytesseract: " ++
  extracted_text ++
  ".\n    Extract the list of grocery items from this.\n    Write the names of the grocery items used for food only in a readable format with full name.\n    Write these items as a list, like: [\x27Item 1 Name\x27, \x27Item 2 Name\x27, \x27Item 3 Name\x27, ...] with no preamble.\n    "

/-- The JSON body of a `/generate-meal-plan` request after the `.get`
calls: every field may be absent. -/
structure MealPlanData where
  age : Option String
  weight : Option String
  height : Option String
  gender : Option String
  diet_type : Option String
  allergies : Option String
  health_conditions : Option String
  health_goal : Option String
  cuisine : Option String
  item_list : Option (List String)
  expiry_dates : Option (List (String × String))

/-- `prompt_template_meal` (meal_plan.py:46-68) rendered with the
caller-supplied values. -/
def renderMealPrompt (d : MealPlanData) (items : List String)
    (days : List (String × Int)) : String :=
  "\n    1. You are an AI nutritionist. Generate a 7-day meal plan (4 meals per day) based on the following details:\n    - Age: " ++
  pyStrOfOpt d.age ++
  "\n    - Weight: " ++ pyStrOfOpt d.weight ++
  " kg\n    - Height: " ++ pyStrOfOpt d.height ++
  " cm\n    - Gender: " ++ pyStrOfOpt d.gender ++
  "\n    - Dietary Preferences: " ++ pyStrOfOpt d.diet_type ++
  "\n    - Allergies: " ++ pyStrOfOpt d.allergies ++
  "\n    - Health Conditions: " ++ pyStrOfOpt d.health_conditions ++
  "\n    - Health Goal: " ++ pyStrOfOpt d.health_goal ++
  "\n    - Preferred Cuisine: " ++ pyStrOfOpt d.cuisine ++
  "\n    - Available Ingredients: " ++ pyStrOfList items ++
  "\n    - Time Until Expiry (Days): " ++ pyStrOfDict days ++
  "\n    \n    2. The plan should be optimized to minimize food waste by prioritizing items that expire soon.\n    3. Strictly do not repeat the exact same meals on consecutive days.\n    4. Double check your responses before finalizing the meal plan.\n    5. Output the plan in JSON format with days (monday, tuesday, wednesday, etc.) as keys and each day containing 4 meals (breakfast, lunch, snacks, dinner).\n    6. Make sure that the response does not contain any preamble. Return JSON text only, no markdown formatting, no triple backticks, no explanations.\n    "

/-- The JSON body of a `/generate-recipe` request after the `.get`
calls. -/
structure RecipeData where
  meal : Option String
  item_list : Option (List String)
  expiry_dates : Option (List (String × String))

/-- `prompt_template_recipe` (meal_plan.py:70-81) rendered. -/
def renderRecipePrompt (meal : Option String) (items : List String)
    (days : List (String × Int)) : String :=
  "\n    1. You are an AI nutritionist. Generate a recipe based on the following details:\n    - Meal: " ++
  pyStrOfOpt meal ++
  "\n    - Items: " ++ pyStrOfList items ++
  "\n    - Time until expiry: " ++ pyStrOfDict days ++
  "\n    2. The recipe should be optimized to minimize food waste by prioritizing items that expire soon. If absolutely needed, include items not available in the items list as well, while specifying them.\n    3. Double check your responses before finalizing the meal recipe.\n    4. Output the plan in JSON format with \"recipes\" array containing recipe_name, ingredients (item, quantity, note) and instructions, all for each recipe.\n    5. Make sure that the response does not contain any preamble. Return JSON text only.\n    "

/-- A JSON response body produced by a handler. -/
inductive Body where
  | err (msg : String) : Body
  | errWithOutput (msg raw : String) : Body
  | grocery (items : PyLit) : Body
  | json (j : J) : Body

/-- `/extract-items` (meal_plan.py:88-106).  `files` is the multipart
field-name set; the OCR adapter (`Image.open` + `pytesseract`) and the
LLM chain are parameters.  Only `ast.literal_eval` sits inside a `try`:
adapter exceptions leave the handler as `.error`. -/
def extract_items (files : List String) (ocr : Except String String)
    (llm : String → Except String String) : Except String (Nat × Body) :=
  if !files.contains "image" then .ok (400, Body.err "No image provided")
  else do
    let extracted_text ← ocr
    let result ← llm (renderItemsPrompt extracted_text)
    match literalEval result with
    | some grocery_list => pure (200, Body.grocery grocery_list)
    | none => pure (500, Body.errWithOutput "Failed to parse LLM response" result)

/-- The body of `/generate-meal-plan`'s `try` block (meal_plan.py:114-149):
defaults, expiry computation, LLM call, markdown cleanup, JSON parse. -/
def mealPlanPipeline (data : MealPlanData) (today : Date)
    (llm : String → Except String String) : Except String J := do
  let item_list := data.item_list.getD []
  let expiry_dates := data.expiry_dates.getD []
  let days_to_expiry ← calculate_days_to_expiry expiry_dates today
  let result ← llm (renderMealPrompt data item_list days_to_expiry)
  let cleaned := cleanMarkdown result
  jsonLoads cleaned

/-- `/generate-meal-plan` (meal_plan.py:108-152): the whole pipeline is
inside `try`, any exception becomes HTTP 400 with the exception text. -/
def generate_meal_plan (data : MealPlanData) (today : Date)
    (llm : String → Except String String) : Except String (Nat × Body) :=
  .ok (match mealPlanPipeline data today llm with
       | .ok meal_plan => (200, Body.json meal_plan)
       | .error e => (400, Body.err e))

/-- The body of `/generate-recipe`'s `try` block (meal_plan.py:159-179). -/
def recipePipeline (data : RecipeData) (today : Date)
    (llm : String → Except String String) : Except String J := do
  let item_list := data.item_list.getD []
  let expiry_dates := data.expiry_dates.getD []
  let days_to_expiry ← calculate_days_to_expiry expiry_dates today
  let result ← llm (renderRecipePrompt data.meal item_list days_to_expiry)
  let cleaned := cleanMarkdown result
  jsonLoads cleaned

/-- `/generate-recipe` (meal_plan.py:154-182): same blanket catch-to-400
policy as the meal-plan handler. -/
def generate_recipe (data : RecipeData) (today : Date)
    (llm : String → Except String String) : Except String (Nat × Body) :=
  .ok (match recipePipeline data today llm with
       | .ok recipe => (200, Body.json recipe)
       | .error e => (400, Body.err e))

/-- An all-absent meal-plan request body. -/
def emptyMealPlanData : MealPlanData :=
  ⟨none, none, none, none, none, none, none, none, none, none, none⟩

example : extract_items [] (.ok "text") (fun _ => .ok "[]") =
    .ok (400, Body.err "No image provided") := rfl
example : extract_items ["image"] (.error "ocr boom") (fun _ => .ok "[]") =
    .error "ocr boom" := rfl
example : extract_items ["image"] (.ok "text") (fun _ => .ok "[\x27Milk\x27]") =
    .ok (200, Body.grocery (PyLit.list [PyLit.str "Milk"])) := rfl
example : extract_items ["image"] (.ok "text") (fun _ => .ok "oops") =
    .ok (500, Body.errWithOutput "Failed to parse LLM response" "oops") := rfl
example : generate_meal_plan emptyMealPlanData ⟨2024, 1, 1⟩ (fun _ => .ok "\x7b\x7d") =
    .ok (200, Body.json (J.obj [])) := rfl
example : generate_meal_plan emptyMealPlanData ⟨2024, 1, 1⟩ (fun _ => .error "llm boom") =
    .ok (400, Body.err "llm boom") := rfl
example :
    generate_meal_plan
      { emptyMealPlanData with expiry_dates := some [("Milk", "2024/01/01")] }
      ⟨2024, 1, 1⟩ (fun _ => .ok "\x7b\x7d") =
    .ok (400, Body.err (fmtErrMsg "2024/01/01")) := rfl
example : generate_recipe ⟨some "Pasta", none, none⟩ ⟨2024, 1, 1⟩
      (fun _ => .ok "```json\n\x7b\"recipes\": []\x7d\n```") =
    .ok (200, Body.json (J.obj [("recipes", J.arr [])])) := rfl

/- ----------------------------------------------------------------- -/
/- Helper lemmas                                                      -/
/- ----------------------------------------------------------------- -/

theorem dropWhile_app_all (p : Char → Bool) (a t : List Char)
    (h : ∀ c ∈ a, p c = true) : (a ++ t).dropWhile p = t.dropWhile p := by
  induction a with
  | nil => rfl
  | cons c a ih =>
    rw [List.cons_append, List.dropWhile_cons, if_pos (h c (List.mem_cons_self c a))]
    exact ih (fun x hx => h x (List.mem_cons_of_mem c hx))

theorem dropWhile_head_not (p : Char → Bool) (l : List Char)
    (h : ∀ a, l.head? = some a → p a = false) : l.dropWhile p = l := by
  cases l with
  | nil => rfl
  | cons a t => simp [List.dropWhile_cons, h a rfl]

theorem dropWhile_sub (p q : Char → Bool) (hpq : ∀ c, q c = true → p c = true)
    (l : List Char) : (l.dropWhile q).dropWhile p = l.dropWhile p := by
  induction l with
  | nil => rfl
  | cons c t ih =>
    by_cases hq : q c = true
    · simp [List.dropWhile_cons, hq, hpq c hq, ih]
    · have hq2 : q c = false := by revert hq; cases q c <;> simp
      simp [List.dropWhile_cons, hq2]

theorem dropEnd_decomp (p : Char → Bool) (x : List Char) :
    x = dropEndWhile p x ++ (x.reverse.takeWhile p).reverse ∧
      ∀ c ∈ (x.reverse.takeWhile p).reverse, p c = true := by
  constructor
  · calc x = x.reverse.reverse := (List.reverse_reverse x).symm
      _ = (x.reverse.takeWhile p ++ x.reverse.dropWhile p).reverse := by
          rw [List.takeWhile_append_dropWhile]
      _ = (x.reverse.dropWhile p).reverse ++ (x.reverse.takeWhile p).reverse :=
          List.reverse_append _ _
      _ = dropEndWhile p x ++ (x.reverse.takeWhile p).reverse := rfl
  · intro c hc
    rw [List.mem_reverse] at hc
    exact List.mem_takeWhile_imp hc

theorem getLast?_app_right (a c : List Char) (h : c ≠ []) :
    (a ++ c).getLast? = c.getLast? := by
  rw [← List.head?_reverse, List.reverse_append, ← List.head?_reverse c]
  cases hc : c.reverse with
  | nil => exact absurd (by simpa using congrArg List.reverse hc) h
  | cons y ys => simp [hc]

theorem getLast?_cons_of_ne_nil (x : Char) (c : List Char) (h : c ≠ []) :
    (x :: c).getLast? = c.getLast? :=
  getLast?_app_right [x] c h

theorem ne_nil_of_getLast? {c : List Char} {b : Char} (h : c.getLast? = some b) :
    c ≠ [] := by
  intro hc
  subst hc
  simp at h

theorem trim_eq_self (p : Char → Bool) (T : List Char)
    (hh : ∀ a, T.head? = some a → p a = false)
    (hl : ∀ b, T.getLast? = some b → p b = false) : trimBy p T = T := by
  unfold trimBy dropEndWhile
  rw [dropWhile_head_not p T hh]
  rw [dropWhile_head_not p T.reverse
    (fun a ha => hl a (by rwa [List.head?_reverse] at ha))]
  exact List.reverse_reverse T

/-- A character a successful JSON parse can begin or end on: never
Python whitespace and never a backtick. -/
def goodCh (c : Char) : Prop := isPyWs c = false ∧ c ≠ btChar

instance goodChDecidable (c : Char) : Decidable (goodCh c) :=
  inferInstanceAs (Decidable (_ ∧ _))

/-- The list ends in a good character. -/
def lastGood (c : List Char) : Prop := ∃ b, c.getLast? = some b ∧ goodCh b

/-- `l` is `r` preceded by a nonempty consumed region ending in a good
character. -/
def ConsR (l r : List Char) : Prop := ∃ c, l = c ++ r ∧ c ≠ [] ∧ lastGood c

theorem goodCh_digit {c : Char} (h : c.isDigit = true) : goodCh c := by
  constructor
  · cases hws : isPyWs c
    · rfl
    · exfalso
      simp only [isPyWs, Bool.or_eq_true, beq_iff_eq] at hws
      rcases hws with ((((hc | hc) | hc) | hc) | hc) | hc <;> subst hc <;>
        exact absurd h (by decide)
  · intro hc
    subst hc
    exact absurd h (by decide)

theorem lastGood_app (a c : List Char) (h : lastGood c) : lastGood (a ++ c) := by
  obtain ⟨b, hb, hg⟩ := h
  exact ⟨b, by rw [getLast?_app_right a c (ne_nil_of_getLast? hb)]; exact hb, hg⟩

theorem lastGood_concat (a : List Char) (d : Char) (h : goodCh d) :
    lastGood (a ++ [d]) :=
  ⟨d, List.getLast?_concat _, h⟩

theorem consR_terminal (pre w r : List Char) (d : Char) (hd : goodCh d) :
    ConsR (pre ++ (w ++ d :: r)) r := by
  refine ⟨pre ++ (w ++ [d]), by simp, by simp, ?_⟩
  have he : pre ++ (w ++ [d]) = (pre ++ w) ++ [d] := by simp
  rw [he]
  exact lastGood_concat _ _ hd

theorem consR_comp (pre l r : List Char) (h : ConsR l r) : ConsR (pre ++ l) r := by
  obtain ⟨c, hc, hne, hlast⟩ := h
  exact ⟨pre ++ c, by rw [hc, List.append_assoc], by simp [hne],
    lastGood_app pre c hlast⟩

theorem consR_cons (c₀ : Char) (l r : List Char) (h : ConsR l r) :
    ConsR (c₀ :: l) r :=
  consR_comp [c₀] l r h

/-- A successfully parsed JSON string token consumes a nonempty region
ending in the closing quote. -/
theorem strTok_consumed : ∀ f : Nat,
    (∀ l s r, pStrTok f l = some (s, r) → ∃ c, l = c ++ r ∧ c.getLast? = some '"') ∧
    (∀ l s r, pEsc f l = some (s, r) → ∃ c, l = c ++ r ∧ c.getLast? = some '"') ∧
    (∀ l s r, pEscU f l = some (s, r) → ∃ c, l = c ++ r ∧ c.getLast? = some '"') := by
  intro f
  induction f with
  | zero =>
    exact ⟨fun l s r h => by simp [pStrTok] at h,
      fun l s r h => by simp [pEsc] at h,
      fun l s r h => by simp [pEscU] at h⟩
  | succ f ih =>
    obtain ⟨ihS, ihE, ihU⟩ := ih
    refine ⟨?_, ?_, ?_⟩
    · intro l s r h
      cases l with
      | nil => simp [pStrTok] at h
      | cons c t =>
        simp only [pStrTok] at h
        by_cases h1 : (c == '"') = true
        · rw [if_pos h1] at h
          simp only [Option.some.injEq, Prod.mk.injEq] at h
          refine ⟨['"'], ?_, rfl⟩
          rw [← h.2, (beq_iff_eq.mp h1 : c = '"')]
          rfl
        · rw [if_neg h1] at h
          by_cases h2 : (c == '\\') = true
          · rw [if_pos h2] at h
            obtain ⟨c2, ht, hlast⟩ := ihE t s r h
            refine ⟨c :: c2, by rw [ht, List.cons_append], ?_⟩
            rw [getLast?_cons_of_ne_nil c c2 (ne_nil_of_getLast? hlast)]
            exact hlast
          · rw [if_neg h2] at h
            by_cases h3 : c.toNat < 32
            · rw [if_pos h3] at h
              simp at h
            · rw [if_neg h3] at h
              rcases hmap : pStrTok f t with _ | ⟨s2, r2⟩
              · rw [hmap] at h
                simp at h
              · rw [hmap] at h
                simp only [Option.map_some', Option.some.injEq, Prod.mk.injEq] at h
                obtain ⟨c2, ht, hlast⟩ := ihS t s2 r2 hmap
                refine ⟨c :: c2, ?_, ?_⟩
                · rw [← h.2, ht, List.cons_append]
                · rw [getLast?_cons_of_ne_nil c c2 (ne_nil_of_getLast? hlast)]
                  exact hlast
    · intro l s r h
      cases l with
      | nil => simp [pEsc] at h
      | cons e t =>
        simp only [pEsc] at h
        by_cases h1 : (e == 'u') = true
        · rw [if_pos h1] at h
          obtain ⟨c2, ht, hlast⟩ := ihU t s r h
          refine ⟨e :: c2, by rw [ht, List.cons_append], ?_⟩
          rw [getLast?_cons_of_ne_nil e c2 (ne_nil_of_getLast? hlast)]
          exact hlast
        · rw [if_neg h1] at h
          rcases hesc : escChar e with _ | ch <;> rw [hesc] at h
          · simp at h
          · rcases hmap : pStrTok f t with _ | ⟨s2, r2⟩
            · rw [hmap] at h
              simp at h
            · rw [hmap] at h
              simp only [Option.map_some', Option.some.injEq, Prod.mk.injEq] at h
              obtain ⟨c2, ht, hlast⟩ := ihS t s2 r2 hmap
              refine ⟨e :: c2, ?_, ?_⟩
              · rw [← h.2, ht, List.cons_append]
              · rw [getLast?_cons_of_ne_nil e c2 (ne_nil_of_getLast? hlast)]
                exact hlast
    · intro l s r h
      rcases l with _ | ⟨x1, _ | ⟨x2, _ | ⟨x3, _ | ⟨x4, t2⟩⟩⟩⟩
      · simp [pEscU] at h
      · simp [pEscU] at h
      · simp [pEscU] at h
      · simp [pEscU] at h
      · simp only [pEscU] at h
        rcases hv : hexVal4 x1 x2 x3 x4 with _ | n <;> rw [hv] at h
        · simp at h
        · simp only at h
          split at h
          · simp at h
          · rcases hmap : pStrTok f t2 with _ | ⟨s2, r2⟩
            · rw [hmap] at h
              simp at h
            · rw [hmap] at h
              simp only [Option.map_some', Option.some.injEq, Prod.mk.injEq] at h
              obtain ⟨c2, ht, hlast⟩ := ihS t2 s2 r2 hmap
              have hne : c2 ≠ [] := ne_nil_of_getLast? hlast
              refine ⟨x1 :: x2 :: x3 :: x4 :: c2, ?_, ?_⟩
              · rw [← h.2, ht]
                simp
              · rw [getLast?_cons_of_ne_nil x1 _ (by simp),
                  getLast?_cons_of_ne_nil x2 _ (by simp),
                  getLast?_cons_of_ne_nil x3 _ (by simp [hne]),
                  getLast?_cons_of_ne_nil x4 _ hne]
                exact hlast

/-- A parsed region `pre ++ takeWhile isDigit t` ends in a digit when
`pre` does. -/
theorem last_digits (pre : List Char) (t : List Char) (b0 : Char)
    (hpre : pre.getLast? = some b0) (hb0 : b0.isDigit = true) :
    ∃ b, (pre ++ t.takeWhile Char.isDigit).getLast? = some b ∧ b.isDigit = true := by
  rcases List.eq_nil_or_concat (t.takeWhile Char.isDigit) with htw | ⟨l2, a, htw⟩
  · rw [htw]
    exact ⟨b0, by simpa using hpre, hb0⟩
  · rw [htw]
    refine ⟨a, ?_, ?_⟩
    · rw [List.concat_eq_append, ← List.append_assoc]
      exact List.getLast?_concat _
    · have hmem : a ∈ t.takeWhile Char.isDigit := by
        rw [htw, List.concat_eq_append]
        simp
      exact List.mem_takeWhile_imp hmem

theorem pNumInt_consumed (l i r : List Char) (h : pNumInt l = some (i, r)) :
    l = i ++ r ∧ ∃ b, i.getLast? = some b ∧ b.isDigit = true := by
  cases l with
  | nil => simp [pNumInt] at h
  | cons c t =>
    simp only [pNumInt] at h
    by_cases h1 : (c == '0') = true
    · rw [if_pos h1] at h
      simp only [Option.some.injEq, Prod.mk.injEq] at h
      rw [← h.1, ← h.2]
      refine ⟨rfl, c, rfl, ?_⟩
      rw [(beq_iff_eq.mp h1 : c = '0')]
      decide
    · rw [if_neg h1] at h
      by_cases h2 : c.isDigit = true
      · rw [if_pos h2] at h
        simp only [Option.some.injEq, Prod.mk.injEq] at h
        rw [← h.1, ← h.2]
        constructor
        · simp [List.takeWhile_append_dropWhile]
        · exact last_digits [c] t c rfl h2
      · rw [if_neg h2] at h
        simp at h

theorem pNumFrac_consumed (l : List Char) :
    l = (pNumFrac l).1 ++ (pNumFrac l).2 ∧
      ((pNumFrac l).1 = [] ∨
        ∃ b, (pNumFrac l).1.getLast? = some b ∧ b.isDigit = true) := by
  rcases l with _ | ⟨a, _ | ⟨c, t⟩⟩
  · simp [pNumFrac]
  · simp [pNumFrac]
  · simp only [pNumFrac]
    by_cases h1 : ((a == '.') && c.isDigit) = true
    · rw [if_pos h1]
      simp only
      constructor
      · simp [List.takeWhile_append_dropWhile]
      · right
        exact last_digits [a, c] t c rfl (Bool.and_elim_right h1)
    · rw [if_neg h1]
      simp

theorem pNumExp_consumed (l : List Char) :
    l = (pNumExp l).1 ++ (pNumExp l).2 ∧
      ((pNumExp l).1 = [] ∨
        ∃ b, (pNumExp l).1.getLast? = some b ∧ b.isDigit = true) := by
  rcases l with _ | ⟨e, _ | ⟨s, _ | ⟨c, t⟩⟩⟩
  · simp [pNumExp]
  · simp [pNumExp]
  · simp only [pNumExp]
    by_cases h1 : ((e == 'e' || e == 'E') && s.isDigit) = true
    · rw [if_pos h1]
      simp only
      constructor
      · simp
      · right
        exact last_digits [e, s] [] s rfl (Bool.and_elim_right h1)
    · rw [if_neg h1]
      simp
  · simp only [pNumExp]
    by_cases h1 : ((e == 'e' || e == 'E') && (s == '+' || s == '-') && c.isDigit) = true
    · rw [if_pos h1]
      simp only
      constructor
      · simp [List.takeWhile_append_dropWhile]
      · right
        exact last_digits [e, s, c] t c rfl (Bool.and_elim_right h1)
    · rw [if_neg h1]
      by_cases h2 : ((e == 'e' || e == 'E') && s.isDigit) = true
      · rw [if_pos h2]
        simp only
        constructor
        · simp [List.takeWhile_append_dropWhile]
        · right
          exact last_digits [e, s] (c :: t) s rfl (Bool.and_elim_right h2)
      · rw [if_neg h2]
        simp

theorem pNumAfterInt_consumed (i r1 : List Char)
    (hi : ∃ b, i.getLast? = some b ∧ b.isDigit = true) :
    i ++ r1 = (pNumAfterInt i r1).1 ++ (pNumAfterInt i r1).2 ∧
      ∃ b, (pNumAfterInt i r1).1.getLast? = some b ∧ b.isDigit = true := by
  obtain ⟨hfr1, hfr2⟩ := pNumFrac_consumed r1
  obtain ⟨hex1, hex2⟩ := pNumExp_consumed (pNumFrac r1).2
  unfold pNumAfterInt
  simp only
  constructor
  · conv_lhs => rw [hfr1]
    conv_lhs => rw [hex1]
    simp
  · rcases hex2 with hnil | ⟨b, hb, hbd⟩
    · rw [hnil, List.append_nil]
      rcases hfr2 with hnil2 | ⟨b, hb, hbd⟩
      · rw [hnil2, List.append_nil]
        exact hi
      · exact ⟨b, by rw [getLast?_app_right i _ (ne_nil_of_getLast? hb)]; exact hb, hbd⟩
    · exact ⟨b, by rw [getLast?_app_right _ _ (ne_nil_of_getLast? hb)]; exact hb, hbd⟩

theorem pNum_consumed (l x r : List Char) (h : pNum l = some (x, r)) :
    l = x ++ r ∧ ∃ b, x.getLast? = some b ∧ b.isDigit = true := by
  cases l with
  | nil => simp [pNum] at h
  | cons c t =>
    simp only [pNum] at h
    by_cases h1 : (c == '-') = true
    · rw [if_pos h1] at h
      rcases hint : pNumInt t with _ | ⟨i, r1⟩ <;> rw [hint] at h
      · simp at h
      · simp only [Option.some.injEq, Prod.mk.injEq] at h
        obtain ⟨hieq, hilast⟩ := pNumInt_consumed t i r1 hint
        obtain ⟨haeq, halast⟩ := pNumAfterInt_consumed i r1 hilast
        rw [← h.1, ← h.2]
        constructor
        · rw [hieq, haeq, List.cons_append]
        · obtain ⟨b, hb, hbd⟩ := halast
          exact ⟨b, by
            rw [getLast?_cons_of_ne_nil c _ (ne_nil_of_getLast? hb)]; exact hb, hbd⟩
    · rw [if_neg h1] at h
      rcases hint : pNumInt (c :: t) with _ | ⟨i, r1⟩ <;> rw [hint] at h
      · simp at h
      · simp only [Option.some.injEq] at h
        obtain ⟨hieq, hilast⟩ := pNumInt_consumed _ i r1 hint
        obtain ⟨haeq, halast⟩ := pNumAfterInt_consumed i r1 hilast
        have hx : (pNumAfterInt i r1).1 = x := congrArg Prod.fst h
        have hr : (pNumAfterInt i r1).2 = r := congrArg Prod.snd h
        rw [← hx, ← hr]
        exact ⟨by rw [hieq, haeq], halast⟩

/-- Leading-whitespace decomposition of a list. -/
theorem skipWs_decomp (t : List Char) :
    ∃ w, t = w ++ skipWs t ∧ ∀ x ∈ w, isJWs x = true :=
  ⟨t.takeWhile isJWs, (List.takeWhile_append_dropWhile isJWs t).symm,
    fun x hx => List.mem_takeWhile_imp hx⟩

/-- JSON whitespace is Python whitespace. -/
theorem jWs_pyWs {c : Char} (h : isJWs c = true) : isPyWs c = true := by
  simp only [isJWs, Bool.or_eq_true, beq_iff_eq] at h
  rcases h with ((hc | hc) | hc) | hc <;> subst hc <;> decide

theorem isJWs_false_of_pyWs_false {c : Char} (h : isPyWs c = false) :
    isJWs c = false := by
  cases hj : isJWs c
  · rfl
  · rw [jWs_pyWs hj] at h
    exact absurd h (by simp)

theorem isBT_false_of_good {ch : Char} (h : goodCh ch) : isBT ch = false := by
  obtain ⟨hws, hbt⟩ := h
  have h1 : (ch == btChar) = false := beq_eq_false_iff_ne.mpr hbt
  have h2 : (ch == '\n') = false := by
    refine beq_eq_false_iff_ne.mpr ?_
    intro hc
    subst hc
    exact absurd hws (by decide)
  have h3 : (ch == ' ') = false := by
    refine beq_eq_false_iff_ne.mpr ?_
    intro hc
    subst hc
    exact absurd hws (by decide)
  simp [isBT, h1, h2, h3]

/-- A successful `pVal` consumes a nonempty region ending in a good
character; likewise for element and member lists. -/
theorem pVal_consumed_all : ∀ f : Nat,
    (∀ l v r, pVal f l = some (v, r) → ConsR l r) ∧
    (∀ l vs r, pElems f l = some (vs, r) → ConsR l r) ∧
    (∀ l ms r, pMembers f l = some (ms, r) → ConsR l r) := by
  intro f
  induction f with
  | zero =>
    exact ⟨fun l v r h => by simp [pVal] at h,
      fun l vs r h => by simp [pElems] at h,
      fun l ms r h => by simp [pMembers] at h⟩
  | succ f ih =>
    obtain ⟨ihV, ihE, ihM⟩ := ih
    refine ⟨?_, ?_, ?_⟩
    · intro l v r h
      cases l with
      | nil => simp [pVal] at h
      | cons c t =>
        simp only [pVal] at h
        by_cases hc1 : (c == '{') = true
        · rw [if_pos hc1] at h
          split at h
          · rename_i d r2 heq
            split at h
            · rename_i hd
              simp only [Option.some.injEq, Prod.mk.injEq] at h
              obtain ⟨w, hw, _⟩ := skipWs_decomp t
              rw [← h.2]
              have hl : c :: t = [c] ++ (w ++ d :: r2) := by
                rw [hw, heq]
                simp
              rw [hl]
              exact consR_terminal [c] w r2 d
                (by rw [(beq_iff_eq.mp hd : d = '}')]; decide)
            · rename_i hd
              rcases hm : pMembers f (d :: r2) with _ | ⟨ms, r3⟩ <;> rw [hm] at h
              · exact Option.noConfusion h
              · simp only [Option.map_some', Option.some.injEq, Prod.mk.injEq] at h
                obtain ⟨w, hw, _⟩ := skipWs_decomp t
                rw [← h.2]
                have hl : c :: t = ([c] ++ w) ++ (d :: r2) := by
                  rw [hw, heq]
                  simp
                rw [hl]
                exact consR_comp ([c] ++ w) _ _ (ihM (d :: r2) ms r3 hm)
          · exact Option.noConfusion h
        · rw [if_neg hc1] at h
          by_cases hc2 : (c == '[') = true
          · rw [if_pos hc2] at h
            split at h
            · rename_i d r2 heq
              split at h
              · rename_i hd
                simp only [Option.some.injEq, Prod.mk.injEq] at h
                obtain ⟨w, hw, _⟩ := skipWs_decomp t
                rw [← h.2]
                have hl : c :: t = [c] ++ (w ++ d :: r2) := by
                  rw [hw, heq]
                  simp
                rw [hl]
                exact consR_terminal [c] w r2 d
                  (by rw [(beq_iff_eq.mp hd : d = ']')]; decide)
              · rename_i hd
                rcases hm : pElems f (d :: r2) with _ | ⟨vs, r3⟩ <;> rw [hm] at h
                · exact Option.noConfusion h
                · simp only [Option.map_some', Option.some.injEq, Prod.mk.injEq] at h
                  obtain ⟨w, hw, _⟩ := skipWs_decomp t
                  rw [← h.2]
                  have hl : c :: t = ([c] ++ w) ++ (d :: r2) := by
                    rw [hw, heq]
                    simp
                  rw [hl]
                  exact consR_comp ([c] ++ w) _ _ (ihE (d :: r2) vs r3 hm)
            · exact Option.noConfusion h
          · rw [if_neg hc2] at h
            by_cases hc3 : (c == '"') = true
            · rw [if_pos hc3] at h
              rcases hst : pStrTok (f + 1) t with _ | ⟨s2, r2⟩ <;> rw [hst] at h
              · exact Option.noConfusion h
              · simp only [Option.map_some', Option.some.injEq, Prod.mk.injEq] at h
                obtain ⟨cs, ht, hlast⟩ := (strTok_consumed (f + 1)).1 t s2 r2 hst
                rw [← h.2]
                refine ⟨c :: cs, by rw [ht, List.cons_append], by simp, ?_⟩
                refine ⟨'"', ?_, by decide⟩
                rw [getLast?_cons_of_ne_nil c cs (ne_nil_of_getLast? hlast)]
                exact hlast
            · rw [if_neg hc3] at h
              by_cases hc4 : (c == 't') = true
              · rw [if_pos hc4] at h
                split at h
                · rename_i x y z t2
                  split at h
                  · rename_i hxyz
                    simp only [Option.some.injEq, Prod.mk.injEq] at h
                    rw [← h.2]
                    refine ⟨[c, x, y, z], rfl, by simp, ?_⟩
                    refine ⟨z, rfl, ?_⟩
                    rw [(beq_iff_eq.mp (Bool.and_elim_right hxyz) : z = 'e')]
                    decide
                  · exact Option.noConfusion h
                · exact Option.noConfusion h
              · rw [if_neg hc4] at h
                by_cases hc5 : (c == 'f') = true
                · rw [if_pos hc5] at h
                  split at h
                  · rename_i x y z w t2
                    split at h
                    · rename_i hxyzw
                      simp only [Option.some.injEq, Prod.mk.injEq] at h
                      rw [← h.2]
                      refine ⟨[c, x, y, z, w], rfl, by simp, ?_⟩
                      refine ⟨w, rfl, ?_⟩
                      rw [(beq_iff_eq.mp (Bool.and_elim_right hxyzw) : w = 'e')]
                      decide
                    · exact Option.noConfusion h
                  · exact Option.noConfusion h
                · rw [if_neg hc5] at h
                  by_cases hc6 : (c == 'n') = true
                  · rw [if_pos hc6] at h
                    split at h
                    · rename_i x y z t2
                      split at h
                      · rename_i hxyz
                        simp only [Option.some.injEq, Prod.mk.injEq] at h
                        rw [← h.2]
                        refine ⟨[c, x, y, z], rfl, by simp, ?_⟩
                        refine ⟨z, rfl, ?_⟩
                        rw [(beq_iff_eq.mp (Bool.and_elim_right hxyz) : z = 'l')]
                        decide
                      · exact Option.noConfusion h
                    · exact Option.noConfusion h
                  · rw [if_neg hc6] at h
                    by_cases hc7 : (c == '-' || c.isDigit) = true
                    · rw [if_pos hc7] at h
                      rcases hn : pNum (c :: t) with _ | ⟨x, r2⟩ <;> rw [hn] at h
                      · exact Option.noConfusion h
                      · simp only [Option.map_some', Option.some.injEq,
                          Prod.mk.injEq] at h
                        obtain ⟨heq, b, hb, hbd⟩ := pNum_consumed (c :: t) x r2 hn
                        rw [← h.2, heq]
                        exact ⟨x, rfl, ne_nil_of_getLast? hb, b, hb, goodCh_digit hbd⟩
                    · rw [if_neg hc7] at h
                      exact Option.noConfusion h
    · intro l vs r h
      simp only [pElems] at h
      split at h
      · rename_i v r0 heqV
        split at h
        · rename_i d r2 heqS
          split at h
          · rename_i hd
            rcases hin : pElems f (skipWs r2) with _ | ⟨vs2, r3⟩ <;>
              rw [hin] at h
            · exact Option.noConfusion h
            · simp only [Option.map_some', Option.some.injEq, Prod.mk.injEq] at h
              rw [← h.2]
              obtain ⟨cv, hcv, hcvne, hcvlast⟩ := ihV l v r0 heqV
              obtain ⟨w1, hw1, _⟩ := skipWs_decomp r0
              obtain ⟨w2, hw2, _⟩ := skipWs_decomp r2
              have hl : l = (cv ++ w1 ++ d :: w2) ++ skipWs r2 := by
                conv_lhs => rw [hcv, hw1, heqS, hw2]
                simp
              rw [hl]
              exact consR_comp _ _ _ (ihE (skipWs r2) vs2 r3 hin)
          · split at h
            · rename_i hd2
              simp only [Option.some.injEq, Prod.mk.injEq] at h
              rw [← h.2]
              obtain ⟨cv, hcv, hcvne, hcvlast⟩ := ihV l v r0 heqV
              obtain ⟨w1, hw1, _⟩ := skipWs_decomp r0
              have hl : l = cv ++ (w1 ++ d :: r2) := by
                conv_lhs => rw [hcv, hw1, heqS]
              rw [hl]
              exact consR_terminal cv w1 r2 d
                (by rw [(beq_iff_eq.mp hd2 : d = ']')]; decide)
            · exact Option.noConfusion h
        · exact Option.noConfusion h
      · exact Option.noConfusion h
    · intro l ms r h
      cases l with
      | nil => simp [pMembers] at h
      | cons c t =>
        simp only [pMembers] at h
        by_cases hc : (c == '"') = true
        · rw [if_pos hc] at h
          split at h
          · rename_i k r1 heqK
            split at h
            · rename_i d r2 heqS1
              split at h
              · rename_i hd
                split at h
                · rename_i v r3 heqV
                  split at h
                  · rename_i d2 r4 heqS2
                    split at h
                    · rename_i hd2
                      rcases hin : pMembers f (skipWs r4) with _ | ⟨ms2, r5⟩ <;>
                        rw [hin] at h
                      · exact Option.noConfusion h
                      · simp only [Option.map_some', Option.some.injEq,
                          Prod.mk.injEq] at h
                        rw [← h.2]
                        obtain ⟨cs, htk, hklast⟩ :=
                          (strTok_consumed (f + 1)).1 t k r1 heqK
                        obtain ⟨w1, hw1, _⟩ := skipWs_decomp r1
                        obtain ⟨w2, hw2, _⟩ := skipWs_decomp r2
                        obtain ⟨cv, hcv, hcvne, hcvlast⟩ :=
                          ihV (skipWs r2) v r3 heqV
                        obtain ⟨w3, hw3, _⟩ := skipWs_decomp r3
                        obtain ⟨w4, hw4, _⟩ := skipWs_decomp r4
                        have hl : c :: t =
                            (c :: cs ++ w1 ++ d :: w2 ++ cv ++ w3 ++ d2 :: w4) ++
                              skipWs r4 := by
                          conv_lhs => rw [htk, hw1, heqS1, hw2, hcv, hw3, heqS2, hw4]
                          simp
                        rw [hl]
                        exact consR_comp _ _ _ (ihM (skipWs r4) ms2 r5 hin)
                    · split at h
                      · rename_i hd3
                        simp only [Option.some.injEq, Prod.mk.injEq] at h
                        rw [← h.2]
                        obtain ⟨cs, htk, hklast⟩ :=
                          (strTok_consumed (f + 1)).1 t k r1 heqK
                        obtain ⟨w1, hw1, _⟩ := skipWs_decomp r1
                        obtain ⟨w2, hw2, _⟩ := skipWs_decomp r2
                        obtain ⟨cv, hcv, hcvne, hcvlast⟩ :=
                          ihV (skipWs r2) v r3 heqV
                        obtain ⟨w3, hw3, _⟩ := skipWs_decomp r3
                        have hl : c :: t =
                            (c :: cs ++ w1 ++ d :: w2 ++ cv) ++ (w3 ++ d2 :: r4) := by
                          conv_lhs => rw [htk, hw1, heqS1, hw2, hcv, hw3, heqS2]
                          simp
                        rw [hl]
                        exact consR_terminal _ w3 r4 d2
                          (by rw [(beq_iff_eq.mp hd3 : d2 = '}')]; decide)
                      · exact Option.noConfusion h
                  · exact Option.noConfusion h
                · exact Option.noConfusion h
              · exact Option.noConfusion h
            · exact Option.noConfusion h
          · exact Option.noConfusion h
        · rw [if_neg hc] at h
          exact Option.noConfusion h

/-- A successful `pVal` begins at a good character. -/
theorem pVal_head (f : Nat) (l : List Char) (v : J) (r : List Char)
    (h : pVal f l = some (v, r)) : ∃ c₀ t₀, l = c₀ :: t₀ ∧ goodCh c₀ := by
  cases f with
  | zero => simp [pVal] at h
  | succ f =>
    cases l with
    | nil => simp [pVal] at h
    | cons c t =>
      refine ⟨c, t, rfl, ?_⟩
      simp only [pVal] at h
      by_cases hc1 : (c == '{') = true
      · have hc := beq_iff_eq.mp hc1
        subst hc
        decide
      · rw [if_neg hc1] at h
        by_cases hc2 : (c == '[') = true
        · have hc := beq_iff_eq.mp hc2
          subst hc
          decide
        · rw [if_neg hc2] at h
          by_cases hc3 : (c == '"') = true
          · have hc := beq_iff_eq.mp hc3
            subst hc
            decide
          · rw [if_neg hc3] at h
            by_cases hc4 : (c == 't') = true
            · have hc := beq_iff_eq.mp hc4
              subst hc
              decide
            · rw [if_neg hc4] at h
              by_cases hc5 : (c == 'f') = true
              · have hc := beq_iff_eq.mp hc5
                subst hc
                decide
              · rw [if_neg hc5] at h
                by_cases hc6 : (c == 'n') = true
                · have hc := beq_iff_eq.mp hc6
                  subst hc
                  decide
                · rw [if_neg hc6] at h
                  by_cases hc7 : (c == '-' || c.isDigit) = true
                  · rw [Bool.or_eq_true] at hc7
                    rcases hc7 with hcm | hcd
                    · have hc := beq_iff_eq.mp hcm
                      subst hc
                      decide
                    · exact goodCh_digit hcd
                  · rw [if_neg hc7] at h
                    exact Option.noConfusion h

/-- Stripping the wider Python whitespace reaches the same core as
stripping JSON whitespace, when that core starts and ends on
non-whitespace. -/
theorem trim_py_eq_trim_j (L T : List Char) (hT : trimBy isJWs L = T)
    (hne : T ≠ [])
    (hhead : ∀ a, T.head? = some a → isPyWs a = false)
    (hlast : ∀ b, T.getLast? = some b → isPyWs b = false) :
    trimBy isPyWs L = T := by
  obtain ⟨hdec, hall⟩ := dropEnd_decomp isJWs (L.dropWhile isJWs)
  set w2 := ((L.dropWhile isJWs).reverse.takeWhile isJWs).reverse with hw2
  have hD : L.dropWhile isJWs = T ++ w2 := by
    rw [show dropEndWhile isJWs (L.dropWhile isJWs) = trimBy isJWs L from rfl, hT] at hdec
    exact hdec
  have h1 : L.dropWhile isPyWs = (L.dropWhile isJWs).dropWhile isPyWs :=
    (dropWhile_sub isPyWs isJWs (fun c hc => jWs_pyWs hc) L).symm
  have h2 : (T ++ w2).dropWhile isPyWs = T ++ w2 := by
    apply dropWhile_head_not
    intro a ha
    cases T with
    | nil => exact absurd rfl hne
    | cons c₀ t₀ =>
      simp only [List.cons_append, List.head?_cons, Option.some.injEq] at ha
      rw [← ha]
      exact hhead c₀ rfl
  have h3 : L.dropWhile isPyWs = T ++ w2 := by
    rw [h1, hD]
    exact h2
  unfold trimBy
  rw [h3]
  unfold dropEndWhile
  rw [List.reverse_append]
  rw [dropWhile_app_all isPyWs w2.reverse T.reverse
    (fun ch hc => jWs_pyWs (hall ch (by rwa [List.mem_reverse] at hc)))]
  rw [dropWhile_head_not isPyWs T.reverse
    (fun a ha => hlast a (by rwa [List.head?_reverse] at ha))]
  exact List.reverse_reverse T

/-- If some entry's date fails to parse, the expiry calculation raises
(the first failing entry's message). -/
theorem calc_error_of_bad (m : List (String × String)) (today : Date)
    (q : String × String) (hq : q ∈ m) (hbad : isOkB (parseDate q.2) = false) :
    ∃ e, calculate_days_to_expiry m today = .error e := by
  induction m with
  | nil => cases hq
  | cons p rest ih =>
    cases hd : parseDate p.2 with
    | error e => exact ⟨e, by simp [calculate_days_to_expiry, hd, Bind.bind, Except.bind]⟩
    | ok d =>
      rcases List.mem_cons.mp hq with hqp | hqrest
      · rw [hqp] at hbad; rw [hd] at hbad; simp [isOkB] at hbad
      · obtain ⟨e, he⟩ := ih hqrest
        exact ⟨e, by simp [calculate_days_to_expiry, hd, he, Bind.bind, Except.bind]⟩

/- ----------------------------------------------------------------- -/
/- Claims                                                             -/
/- ----------------------------------------------------------------- -/

/-- C1: for every expiry map whose date strings all parse under
`%Y-%m-%d`, `calculate_days_to_expiry` succeeds with exactly the same
keys in the same order, and the value at each position is the signed day
difference `(parse(m[k]) - today).days` relative to the wall-clock date
`today` (negative for already-expired items). -/
theorem c1_expiry_calculator (m : List (String × String)) (today : Date)
    (h : ∀ p ∈ m, isOkB (parseDate p.2) = true) :
    ∃ l, calculate_days_to_expiry m today = .ok l ∧
      l.map Prod.fst = m.map Prod.fst ∧
      ∀ (i : Nat) (q : String × String), m[i]? = some q → ∀ d, parseDate q.2 = .ok d →
        l[i]? = some (q.1, (dateOrd d : Int) - (dateOrd today : Int)) := by
  induction m with
  | nil => exact ⟨[], rfl, rfl, by simp⟩
  | cons p rest ih =>
    have hp : isOkB (parseDate p.2) = true := h p (List.mem_cons_self _ _)
    cases hd : parseDate p.2 with
    | error e => rw [hd] at hp; simp [isOkB] at hp
    | ok d =>
      obtain ⟨l, hl, hkeys, hvals⟩ := ih (fun q hq => h q (List.mem_cons_of_mem _ hq))
      refine ⟨(p.1, (dateOrd d : Int) - (dateOrd today : Int)) :: l, ?_, ?_, ?_⟩
      · simp [calculate_days_to_expiry, hd, hl, Bind.bind, Except.bind]
      · simpa using hkeys
      · intro i q hq d2 hd2
        cases i with
        | zero =>
          simp only [List.getElem?_cons_zero, Option.some.injEq] at hq
          subst hq
          rw [hd] at hd2
          injection hd2 with hdd
          subst hdd
          simp
        | succ n =>
          simp only [List.getElem?_cons_succ] at hq ⊢
          exact hvals n q hq d2 hd2

/-- C1 witness: an expiry date three days from today yields the integer
3 for the same key. -/
theorem c1_expiry_calculator_witness :
    (∀ p ∈ [("Milk", "2024-01-04")], isOkB (parseDate p.2) = true) ∧
    ∃ l, calculate_days_to_expiry [("Milk", "2024-01-04")] ⟨2024, 1, 1⟩ = .ok l ∧
      l.map Prod.fst = [("Milk", "2024-01-04")].map Prod.fst ∧
      ∀ (i : Nat) (q : String × String), [("Milk", "2024-01-04")][i]? = some q →
        ∀ d, parseDate q.2 = .ok d →
        l[i]? = some (q.1, (dateOrd d : Int) - (dateOrd (⟨2024, 1, 1⟩ : Date) : Int)) :=
  ⟨by decide, c1_expiry_calculator [("Milk", "2024-01-04")] ⟨2024, 1, 1⟩ (by decide)⟩

/-- C2 counterexample: in `/extract-items` an exception from the OCR
adapter is NOT caught inside the handler — it escapes uncaught instead
of being converted into a JSON error body. -/
theorem c2_counterexample :
    extract_items ["image"] (.error "OCR failure") (fun _ => .ok "[]") =
      .error "OCR failure" := rfl

/-- C2 (amended): the meal-plan and recipe handlers wrap their whole
pipeline in a catch-all, always returning a response and converting any
pipeline exception (including LLM failures) into HTTP 400 with the
exception text; in `/extract-items` only the parse step is guarded, so
OCR or LLM exceptions escape the handler uncaught. -/
theorem c2_amended :
    (∀ data today llm, ∃ r, generate_meal_plan data today llm = .ok r) ∧
    (∀ data today llm, ∃ r, generate_recipe data today llm = .ok r) ∧
    (∀ data today llm e, mealPlanPipeline data today llm = .error e →
      generate_meal_plan data today llm = .ok (400, Body.err e)) ∧
    (∀ data today llm e, recipePipeline data today llm = .error e →
      generate_recipe data today llm = .ok (400, Body.err e)) ∧
    (∀ files e llm, "image" ∈ files →
      extract_items files (.error e) llm = .error e) ∧
    (∀ files text e llm, "image" ∈ files →
      llm (renderItemsPrompt text) = .error e →
      extract_items files (.ok text) llm = .error e) := by
  refine ⟨fun data today llm => ⟨_, rfl⟩, fun data today llm => ⟨_, rfl⟩,
    fun data today llm e he => ?_, fun data today llm e he => ?_,
    fun files e llm hf => ?_, fun files text e llm hf hl => ?_⟩
  · simp [generate_meal_plan, he]
  · simp [generate_recipe, he]
  · simp [extract_items, hf, Bind.bind, Except.bind]
  · simp [extract_items, hf, hl, Bind.bind, Except.bind, Except.pure]

/-- C2 witness: concrete runs of every clause of the amended claim. -/
theorem c2_amended_witness :
    (∃ r, generate_meal_plan emptyMealPlanData ⟨2024, 1, 1⟩
        (fun _ => .ok "\x7b\x7d") = .ok r) ∧
    (∃ r, generate_recipe ⟨some "Pasta", none, none⟩ ⟨2024, 1, 1⟩
        (fun _ => .ok "\x7b\x7d") = .ok r) ∧
    (generate_meal_plan emptyMealPlanData ⟨2024, 1, 1⟩ (fun _ => .error "llm down") =
      .ok (400, Body.err "llm down")) ∧
    (generate_recipe ⟨some "Pasta", none, none⟩ ⟨2024, 1, 1⟩ (fun _ => .error "llm down") =
      .ok (400, Body.err "llm down")) ∧
    (extract_items ["image"] (.error "OCR down") (fun _ => .ok "[]") = .error "OCR down") ∧
    (extract_items ["image"] (.ok "receipt") (fun _ => .error "llm down") =
      .error "llm down") :=
  ⟨c2_amended.1 _ _ _, c2_amended.2.1 _ _ _,
   c2_amended.2.2.1 _ _ _ _ rfl, c2_amended.2.2.2.1 _ _ _ _ rfl,
   c2_amended.2.2.2.2.1 _ _ _ (by decide),
   c2_amended.2.2.2.2.2 _ _ _ _ (by decide) rfl⟩

/-- C3 counterexample: the claim quantifies over maps containing a date
string "that does not match the YYYY-MM-DD format"; `strptime` with
`%Y-%m-%d` is lenient about zero padding, so the non-`YYYY-MM-DD` string
"2024-1-1" parses successfully and nothing is raised. -/
theorem c3_counterexample :
    calculate_days_to_expiry [("Milk", "2024-1-1")] ⟨2024, 1, 1⟩ =
      .ok [("Milk", 0)] := rfl

/-- C3 (amended): for every mapping containing a date string rejected by
the `%Y-%m-%d` parse (e.g. "2024/01/01" or "not-a-date" — though not
every non-zero-padded string, which strptime accepts), the expiry
calculator raises a date-parse error rather than skipping the entry, and
both the meal-plan and recipe handlers surface that error as HTTP 400
with the exception text as body. -/
theorem c3_amended (m : List (String × String)) (today : Date)
    (q : String × String) (hq : q ∈ m)
    (hbad : isOkB (parseDate q.2) = false) :
    ∃ e, calculate_days_to_expiry m today = .error e ∧
      (∀ (dataM : MealPlanData) (llm : String → Except String String),
        dataM.expiry_dates = some m →
        generate_meal_plan dataM today llm = .ok (400, Body.err e)) ∧
      (∀ (dataR : RecipeData) (llm : String → Except String String),
        dataR.expiry_dates = some m →
        generate_recipe dataR today llm = .ok (400, Body.err e)) := by
  obtain ⟨e, he⟩ := calc_error_of_bad m today q hq hbad
  refine ⟨e, he, fun dataM llm hm => ?_, fun dataR llm hr => ?_⟩
  · simp [generate_meal_plan, mealPlanPipeline, hm, he, Bind.bind, Except.bind]
  · simp [generate_recipe, recipePipeline, hr, he, Bind.bind, Except.bind]

/-- C3 witness: a slash-formatted date raises and both handlers return
HTTP 400 carrying the strptime message. -/
theorem c3_amended_witness :
    (("Milk", "2024/01/01") ∈ [("Milk", "2024/01/01")]) ∧
    (isOkB (parseDate "2024/01/01") = false) ∧
    ∃ e, calculate_days_to_expiry [("Milk", "2024/01/01")] ⟨2024, 1, 1⟩ = .error e ∧
      (∀ (dataM : MealPlanData) (llm : String → Except String String),
        dataM.expiry_dates = some [("Milk", "2024/01/01")] →
        generate_meal_plan dataM ⟨2024, 1, 1⟩ llm = .ok (400, Body.err e)) ∧
      (∀ (dataR : RecipeData) (llm : String → Except String String),
        dataR.expiry_dates = some [("Milk", "2024/01/01")] →
        generate_recipe dataR ⟨2024, 1, 1⟩ llm = .ok (400, Body.err e)) :=
  ⟨by decide, by decide,
   c3_amended [("Milk", "2024/01/01")] ⟨2024, 1, 1⟩ ("Milk", "2024/01/01")
     (by decide) (by decide)⟩

/-- C4: the Response Normalizer strips a leading case-insensitive
```` ```json ```` fence and/or a trailing ```` ``` ```` fence, then
residual backticks, whitespace and newlines from both ends; in
particular `normalize("```json\n{\"a\":1}\n```")` yields the parsed
object `{"a": 1}`, and leading-only, trailing-only and differently-cased
fences are handled likewise. -/
theorem c4_normalizer_fences :
    cleanMarkdown "```json\n\x7b\"a\":1\x7d\n```" = "\x7b\"a\":1\x7d" ∧
    parseJson (cleanMarkdown "```json\n\x7b\"a\":1\x7d\n```") =
      some (J.obj [("a", J.num "1")]) ∧
    cleanMarkdown "```json\n\x7b\"a\":1\x7d" = "\x7b\"a\":1\x7d" ∧
    cleanMarkdown "\x7b\"a\":1\x7d\n```" = "\x7b\"a\":1\x7d" ∧
    cleanMarkdown "```JSON\n\x7b\"a\":1\x7d\n```" = "\x7b\"a\":1\x7d" ∧
    cleanMarkdown "  ```json\n` \x7b\"a\":1\x7d `\n``` " = "\x7b\"a\":1\x7d" :=
  ⟨rfl, rfl, rfl, rfl, rfl, rfl⟩

/-- C5: on any text that parses as JSON and carries no markdown fences,
the cleanup step is invisible: parsing the cleaned-up text gives exactly
the parse of the original text. -/
theorem c5_normalizer_identity (s : String) (v : J)
    (h1 : parseJson s = some v) (h2 : noFences s = true) :
    parseJson (cleanMarkdown s) = some v := by
  obtain ⟨hFH, hFE⟩ : hasFenceHead (trimBy isPyWs s.data) = false ∧
      hasFenceEnd (trimBy isPyWs s.data) = false := by
    simpa [noFences] using h2
  unfold parseJson at h1
  generalize hTT : trimBy isJWs s.data = T at h1
  split at h1
  · rename_i v0 r heqP
    split at h1
    · rename_i hr
      simp only [Option.some.injEq] at h1
      subst hr
      subst h1
      obtain ⟨cc, hcceq, hccne, hcl⟩ :=
        (pVal_consumed_all (2 * T.length + 2)).1 T v0 [] heqP
      obtain ⟨b, hbl, hbg⟩ := hcl
      have hT_cc : T = cc := by simpa using hcceq
      obtain ⟨c₀, t₀, hhead0, hc₀g⟩ := pVal_head (2 * T.length + 2) T v0 [] heqP
      have hTlast : T.getLast? = some b := by rw [hT_cc]; exact hbl
      have hThead : T.head? = some c₀ := by rw [hhead0]; rfl
      have hheadG : ∀ a, T.head? = some a → goodCh a := by
        intro a ha
        have h5 : some c₀ = some a := by rw [← hThead, ha]
        injection h5 with h6
        rw [← h6]
        exact hc₀g
      have hlastG : ∀ a, T.getLast? = some a → goodCh a := by
        intro a ha
        have h5 : some b = some a := by rw [← hTlast, ha]
        injection h5 with h6
        rw [← h6]
        exact hbg
      have hne : T ≠ [] := by rw [hT_cc]; exact hccne
      have hA : trimBy isPyWs s.data = T :=
        trim_py_eq_trim_j s.data T hTT hne
          (fun a ha => (hheadG a ha).1) (fun a ha => (hlastG a ha).1)
      rw [hA] at hFH hFE
      have hB : cmList s.data = T := by
        simp only [cmList, hA, hFH, hFE, Bool.false_eq_true, if_false]
        exact trim_eq_self isBT T
          (fun a ha => isBT_false_of_good (hheadG a ha))
          (fun a ha => isBT_false_of_good (hlastG a ha))
      have hC : trimBy isJWs (cleanMarkdown s).data = T := by
        have hdata : (cleanMarkdown s).data = cmList s.data := rfl
        rw [hdata, hB]
        exact trim_eq_self isJWs T
          (fun a ha => isJWs_false_of_pyWs_false (hheadG a ha).1)
          (fun a ha => isJWs_false_of_pyWs_false (hlastG a ha).1)
      unfold parseJson
      rw [hC, heqP]
      simp
    · exact Option.noConfusion h1
  · exact Option.noConfusion h1

/-- C5 witness: a fence-free JSON object text parses to the same value
before and after the cleanup. -/
theorem c5_normalizer_identity_witness :
    parseJson " \x7b\"a\": [1, true]\x7d " =
      some (J.obj [("a", J.arr [J.num "1", J.bool true])]) ∧
    noFences " \x7b\"a\": [1, true]\x7d " = true ∧
    parseJson (cleanMarkdown " \x7b\"a\": [1, true]\x7d ") =
      some (J.obj [("a", J.arr [J.num "1", J.bool true])]) :=
  ⟨rfl, rfl, c5_normalizer_identity " \x7b\"a\": [1, true]\x7d " _ rfl rfl⟩

/-- C6 counterexample: the spec's normalizer (fence stripping, then the
literal parse) accepts a fenced list, but the handler parses the raw
model text without stripping and returns the 500 parse-failure response
on the very same output. -/
theorem c6_counterexample :
    specItemNormalize "```json\n[\x27Milk\x27]\n```" =
      some (PyLit.list [PyLit.str "Milk"]) ∧
    extract_items ["image"] (.ok "receipt")
        (fun _ => .ok "```json\n[\x27Milk\x27]\n```") =
      .ok (500, Body.errWithOutput "Failed to parse LLM response"
        "```json\n[\x27Milk\x27]\n```") :=
  ⟨rfl, rfl⟩

/-- C6 (amended): for item-extraction output the handler applies no
fence-stripping: it parses the raw model text directly as a constrained
Python literal (no general code evaluation), returning HTTP 200 with the
parsed value on success and a parse error carrying the original raw text
on failure. -/
theorem c6_amended (files : List String) (text raw : String)
    (llm : String → Except String String)
    (h1 : "image" ∈ files)
    (h2 : llm (renderItemsPrompt text) = .ok raw) :
    extract_items files (.ok text) llm =
      .ok (match literalEval raw with
           | some v => (200, Body.grocery v)
           | none => (500, Body.errWithOutput "Failed to parse LLM response" raw)) := by
  cases h : literalEval raw <;>
    simp [extract_items, h1, h2, h, Bind.bind, Except.bind, Except.pure, Pure.pure]

/-- C6 witness: the un-fenced literal parses, the fenced one fails, and
the handler reflects exactly that. -/
theorem c6_amended_witness :
    ("image" ∈ ["image"]) ∧
    extract_items ["image"] (.ok "receipt") (fun _ => .ok "[\x27Milk\x27]") =
      .ok (match literalEval "[\x27Milk\x27]" with
           | some v => (200, Body.grocery v)
           | none => (500, Body.errWithOutput "Failed to parse LLM response" "[\x27Milk\x27]")) :=
  ⟨by decide, c6_amended ["image"] "receipt" "[\x27Milk\x27]" _ (by decide) rfl⟩

/-- C7: a POST to `/extract-items` without an `image` field returns HTTP
400 with body `{"error": "No image provided"}`, for every OCR and LLM
adapter whatsoever — neither adapter is consulted. -/
theorem c7_no_image (files : List String) (ocr : Except String String)
    (llm : String → Except String String)
    (h : "image" ∉ files) :
    extract_items files ocr llm = .ok (400, Body.err "No image provided") := by
  simp [extract_items, h]

/-- C7 witness: with no `image` field even always-throwing adapters are
never reached. -/
theorem c7_no_image_witness :
    ("image" ∉ ([] : List String)) ∧
    extract_items [] (.error "would throw") (fun _ => .error "would throw") =
      .ok (400, Body.err "No image provided") :=
  ⟨by decide, c7_no_image [] _ _ (by decide)⟩

/-- C8: on unparseable model output `/extract-items` answers HTTP 500
with both the error message and the raw model output; the meal-plan and
recipe handlers answer any failure with HTTP 400 whose body is only an
error message — no raw model output attached. -/
theorem c8_error_payload_asymmetry :
    (∀ files text raw llm, "image" ∈ files →
      llm (renderItemsPrompt text) = .ok raw → literalEval raw = none →
      extract_items files (.ok text) llm =
        .ok (500, Body.errWithOutput "Failed to parse LLM response" raw)) ∧
    (∀ data today llm s b, generate_meal_plan data today llm = .ok (s, b) →
      s ≠ 200 → ∃ msg, b = Body.err msg) ∧
    (∀ data today llm s b, generate_recipe data today llm = .ok (s, b) →
      s ≠ 200 → ∃ msg, b = Body.err msg) := by
  refine ⟨fun files text raw llm h1 h2 h3 => ?_,
    fun data today llm s b h hs => ?_, fun data today llm s b h hs => ?_⟩
  · simp [extract_items, h1, h2, h3, Bind.bind, Except.bind, Except.pure, Pure.pure]
  · cases hp : mealPlanPipeline data today llm with
    | ok j =>
      simp [generate_meal_plan, hp] at h
      exact absurd h.1.symm hs
    | error e =>
      simp [generate_meal_plan, hp] at h
      exact ⟨e, h.2.symm⟩
  · cases hp : recipePipeline data today llm with
    | ok j =>
      simp [generate_recipe, hp] at h
      exact absurd h.1.symm hs
    | error e =>
      simp [generate_recipe, hp] at h
      exact ⟨e, h.2.symm⟩

/-- C8 witness: a concrete 500-with-raw-output for `/extract-items` and
concrete raw-output-free 400 bodies for the other two handlers. -/
theorem c8_error_payload_asymmetry_witness :
    (extract_items ["image"] (.ok "receipt") (fun _ => .ok "oops") =
      .ok (500, Body.errWithOutput "Failed to parse LLM response" "oops")) ∧
    (∃ msg, Body.err "llm down" = Body.err msg) ∧
    (∃ msg, Body.err "llm down" = Body.err msg) :=
  ⟨c8_error_payload_asymmetry.1 ["image"] "receipt" "oops" _ (by decide) rfl rfl,
   c8_error_payload_asymmetry.2.1 emptyMealPlanData ⟨2024, 1, 1⟩
     (fun _ => .error "llm down") 400 (Body.err "llm down") rfl (by decide),
   c8_error_payload_asymmetry.2.2 ⟨some "Pasta", none, none⟩ ⟨2024, 1, 1⟩
     (fun _ => .error "llm down") 400 (Body.err "llm down") rfl (by decide)⟩

/-- C9: every body field of the meal-plan and recipe requests may be
absent — a missing `item_list` behaves as the empty list and a missing
`expiry_dates` as the empty map — and a recipe request with a meal and
an empty item list is not rejected early: the prompt is rendered, the
model invoked on it, and the pipeline completes with HTTP 200. -/
theorem c9_loose_defaults :
    (∀ (a w hh g dt al hc hg cu : Option String) today llm,
      generate_meal_plan ⟨a, w, hh, g, dt, al, hc, hg, cu, none, none⟩ today llm =
      generate_meal_plan ⟨a, w, hh, g, dt, al, hc, hg, cu, some [], some []⟩ today llm) ∧
    (∀ (meal : Option String) today llm,
      generate_recipe ⟨meal, none, none⟩ today llm =
      generate_recipe ⟨meal, some [], some []⟩ today llm) ∧
    (∀ (meal : Option String) today llm out j,
      llm (renderRecipePrompt meal [] []) = .ok out →
      parseJson (cleanMarkdown out) = some j →
      generate_recipe ⟨meal, none, none⟩ today llm = .ok (200, Body.json j)) := by
  refine ⟨fun a w hh g dt al hc hg cu today llm => rfl,
    fun meal today llm => rfl, fun meal today llm out j h1 h2 => ?_⟩
  simp [generate_recipe, recipePipeline, calculate_days_to_expiry, h1, h2,
    jsonLoads, Bind.bind, Except.bind]

/-- C9 witness: a recipe request carrying only a meal runs the full
pipeline to a 200 response. -/
theorem c9_loose_defaults_witness :
    ((fun _ => Except.ok "\x7b\"recipes\": []\x7d" :
        String → Except String String) (renderRecipePrompt (some "Pasta") [] []) =
      .ok "\x7b\"recipes\": []\x7d") ∧
    (parseJson (cleanMarkdown "\x7b\"recipes\": []\x7d") =
      some (J.obj [("recipes", J.arr [])])) ∧
    generate_recipe ⟨some "Pasta", none, none⟩ ⟨2024, 1, 1⟩
        (fun _ => .ok "\x7b\"recipes\": []\x7d") =
      .ok (200, Body.json (J.obj [("recipes", J.arr [])])) :=
  ⟨rfl, rfl, c9_loose_defaults.2.2 (some "Pasta") ⟨2024, 1, 1⟩
    (fun _ => .ok "\x7b\"recipes\": []\x7d") "\x7b\"recipes\": []\x7d"
    (J.obj [("recipes", J.arr [])]) rfl rfl⟩

/-- C10: `/extract-items` performs no shape validation after a
successful literal parse — whatever Python literal the model output
evaluates to (number, string, tuple, dict, nested structure), the
handler returns HTTP 200 with that value under `grocery_items`. -/
theorem c10_no_shape_validation (files : List String) (text raw : String)
    (llm : String → Except String String) (v : PyLit)
    (h1 : "image" ∈ files)
    (h2 : llm (renderItemsPrompt text) = .ok raw)
    (h3 : literalEval raw = some v) :
    extract_items files (.ok text) llm = .ok (200, Body.grocery v) := by
  simp [extract_items, h1, h2, h3, Bind.bind, Except.bind, Except.pure, Pure.pure]

/-- C10 witness: a dict-of-tuple model output — nothing like a list of
strings — still comes back as a 200 `grocery_items` payload. -/
theorem c10_no_shape_validation_witness :
    (literalEval "\x7b\x27a\x27: (1, 2)\x7d" =
      some (PyLit.dict [(PyLit.str "a", PyLit.tuple [PyLit.num "1", PyLit.num "2"])])) ∧
    extract_items ["image"] (.ok "receipt") (fun _ => .ok "\x7b\x27a\x27: (1, 2)\x7d") =
      .ok (200, Body.grocery
        (PyLit.dict [(PyLit.str "a", PyLit.tuple [PyLit.num "1", PyLit.num "2"])])) :=
  ⟨rfl, c10_no_shape_validation ["image"] "receipt" "\x7b\x27a\x27: (1, 2)\x7d" _ _
    (by decide) rfl rfl⟩
